import Mathlib

/-!
# Verification of the banking system (src/banking_system.cpp)

A shallow embedding of the core model of the repository: the `Transaction`
record, the polymorphic `Account` (Savings and Current variants), and the
`Bank` registry.  Monetary values, `double` in the C++ source, are embedded
as exact rationals (`ℚ`); the spec explicitly excludes real currency /
decimal-precision handling, so arithmetic is idealised as exact.  The
timestamp field of `Transaction` (wall-clock `ctime` text) carries no
algorithmic content and is omitted.  All console output is presentation and
is likewise omitted; operations that in C++ signal success or failure by
printing instead return a `Bool` alongside the updated state.
-/

namespace BankingSystem

/-- Embeds the C++ `Transaction` class: a `type` tag string (exactly the
strings the source passes: "Initial Deposit", "Deposit", "Withdrawal",
"Interest Credit", "Overdraft Fee"), the non-negative-by-convention
`amount`, and the `balanceAfter` captured at construction time. -/
structure Transaction where
  type : String
  amount : ℚ
  balanceAfter : ℚ
  deriving DecidableEq, Repr

/-- The fields of the abstract C++ `Account` base class:
`accountNumber`, `holderName`, `balance`, `transactionHistory`. -/
structure AccountBase where
  accountNumber : String
  holderName : String
  balance : ℚ
  transactionHistory : List Transaction
  deriving DecidableEq, Repr

/-- Embeds `Account::Account(accNum, name, initialBalance)`: the balance is
set to `initialBalance` and, when `initialBalance > 0`, a single
"Initial Deposit" transaction of that amount is recorded (with
`balanceAfter` equal to the just-set balance). -/
def AccountBase.init (accNum name : String) (initialBalance : ℚ) : AccountBase :=
  { accountNumber := accNum
    holderName := name
    balance := initialBalance
    transactionHistory :=
      if initialBalance > 0 then
        [{ type := "Initial Deposit", amount := initialBalance,
           balanceAfter := initialBalance }]
      else [] }

/-- Embeds `Account::addTransaction(type, amount)`: appends a `Transaction`
capturing the account's current (post-mutation) balance. -/
def AccountBase.addTransaction (a : AccountBase) (type : String) (amount : ℚ) :
    AccountBase :=
  { a with transactionHistory :=
      a.transactionHistory ++ [{ type := type, amount := amount,
                                 balanceAfter := a.balance }] }

/-- Embeds the C++ `SavingsAccount`: the inherited base fields plus
`interestRate` and `minimumBalance`. -/
structure SavingsAccount where
  base : AccountBase
  interestRate : ℚ
  minimumBalance : ℚ
  deriving DecidableEq, Repr

/-- Embeds `SavingsAccount::deposit`: rejects `amount <= 0` with no state
change; otherwise adds `amount` to the balance and appends a "Deposit"
transaction.  The `Bool` models the success/failure the C++ code reports by
printing. -/
def SavingsAccount.deposit (s : SavingsAccount) (amount : ℚ) :
    Bool × SavingsAccount :=
  if amount ≤ 0 then (false, s)
  else
    let b := { s.base with balance := s.base.balance + amount }
    (true, { s with base := b.addTransaction "Deposit" amount })

/-- Embeds `SavingsAccount::withdraw`: rejects `amount <= 0`; rejects when
`balance - amount < minimumBalance`; otherwise subtracts `amount`, appends a
"Withdrawal" transaction and returns `true`. -/
def SavingsAccount.withdraw (s : SavingsAccount) (amount : ℚ) :
    Bool × SavingsAccount :=
  if amount ≤ 0 then (false, s)
  else if s.base.balance - amount < s.minimumBalance then (false, s)
  else
    let b := { s.base with balance := s.base.balance - amount }
    (true, { s with base := b.addTransaction "Withdrawal" amount })

/-- Embeds `SavingsAccount::applyInterest`: computes
`interest = balance * interestRate / 12`, adds it to the balance, and
appends an "Interest Credit" transaction of that amount.  No precondition is
checked. -/
def SavingsAccount.applyInterest (s : SavingsAccount) : SavingsAccount :=
  let interest := s.base.balance * s.interestRate / 12
  let b := { s.base with balance := s.base.balance + interest }
  { s with base := b.addTransaction "Interest Credit" interest }

/-- Embeds the C++ `CurrentAccount`: the inherited base fields plus
`overdraftLimit` and `overdraftFee`. -/
structure CurrentAccount where
  base : AccountBase
  overdraftLimit : ℚ
  overdraftFee : ℚ
  deriving DecidableEq, Repr

/-- Embeds `CurrentAccount::deposit` (textually the same body as the
Savings override in the source): rejects `amount <= 0`; otherwise adds
`amount` and appends a "Deposit" transaction. -/
def CurrentAccount.deposit (c : CurrentAccount) (amount : ℚ) :
    Bool × CurrentAccount :=
  if amount ≤ 0 then (false, c)
  else
    let b := { c.base with balance := c.base.balance + amount }
    (true, { c with base := b.addTransaction "Deposit" amount })

/-- Embeds `CurrentAccount::withdraw`: rejects `amount <= 0`; rejects when
`balance - amount < -overdraftLimit`; otherwise subtracts `amount` and
appends a "Withdrawal" transaction, and then, if the balance has gone
negative, additionally subtracts `overdraftFee` and appends an
"Overdraft Fee" transaction (with no re-check against the limit). -/
def CurrentAccount.withdraw (c : CurrentAccount) (amount : ℚ) :
    Bool × CurrentAccount :=
  if amount ≤ 0 then (false, c)
  else if c.base.balance - amount < -c.overdraftLimit then (false, c)
  else
    let b1 := ({ c.base with balance := c.base.balance - amount
                 } : AccountBase).addTransaction "Withdrawal" amount
    if b1.balance < 0 then
      let b2 := ({ b1 with balance := b1.balance - c.overdraftFee
                   } : AccountBase).addTransaction "Overdraft Fee" c.overdraftFee
      (true, { c with base := b2 })
    else
      (true, { c with base := b1 })

/-- The polymorphic account: the two concrete variants of the abstract C++
`Account`. -/
inductive Account
  | savings : SavingsAccount → Account
  | current : CurrentAccount → Account
  deriving DecidableEq, Repr

/-- The inherited base fields of either variant. -/
def Account.base : Account → AccountBase
  | .savings s => s.base
  | .current c => c.base

/-- Embeds `Account::getBalance`. -/
def Account.getBalance (a : Account) : ℚ := a.base.balance

/-- Embeds `Account::getAccountNumber`. -/
def Account.getAccountNumber (a : Account) : String := a.base.accountNumber

/-- The transaction history of either variant. -/
def Account.transactionHistory (a : Account) : List Transaction :=
  a.base.transactionHistory

/-- One mutating request against a single account, as the menu dispatches
it: deposit, withdraw, or the bank's batch interest application reaching
this account. -/
inductive AccountOp
  | deposit (amount : ℚ)
  | withdraw (amount : ℚ)
  | applyInterest
  deriving DecidableEq, Repr

/-- Dispatch of one operation on an account, following the virtual calls of
the source.  `applyInterest` exists only on `SavingsAccount`; the bank's
batch loop `dynamic_cast`s and skips Current accounts, so on a Current
account the operation is the identity. -/
def Account.applyOp (a : Account) : AccountOp → Account
  | .deposit amount =>
    match a with
    | .savings s => .savings (s.deposit amount).2
    | .current c => .current (c.deposit amount).2
  | .withdraw amount =>
    match a with
    | .savings s => .savings (s.withdraw amount).2
    | .current c => .current (c.withdraw amount).2
  | .applyInterest =>
    match a with
    | .savings s => .savings s.applyInterest
    | .current c => .current c

/-- A sequence of operations applied in order. -/
def Account.runOps (a : Account) (ops : List AccountOp) : Account :=
  ops.foldl Account.applyOp a

/-- A fresh Savings account as `Bank::createSavingsAccount` constructs it:
the C++ call passes only (accNum, holderName, initialBalance), so the
defaulted parameters `intRate = 0.04` and `minBalance = 100.0` apply. -/
def mkSavingsAccount (accNum name : String) (initialBalance : ℚ) :
    SavingsAccount :=
  { base := AccountBase.init accNum name initialBalance
    interestRate := 4/100
    minimumBalance := 100 }

/-- A fresh Current account as `Bank::createCurrentAccount` constructs it:
the defaulted parameters `overdraftLim = 1000.0` and `overdraftF = 25.0`
apply. -/
def mkCurrentAccount (accNum name : String) (initialBalance : ℚ) :
    CurrentAccount :=
  { base := AccountBase.init accNum name initialBalance
    overdraftLimit := 1000
    overdraftFee := 25 }

/-- Embeds the C++ `Bank`: its name and the owned, ordered collection of
accounts. -/
structure Bank where
  bankName : String
  accounts : List Account
  deriving DecidableEq, Repr

/-- Embeds `Bank::createSavingsAccount`: appends a new Savings account; no
uniqueness check on the account number. -/
def Bank.createSavingsAccount (b : Bank) (accNum name : String)
    (initialBalance : ℚ) : Bank :=
  { b with accounts :=
      b.accounts ++ [Account.savings (mkSavingsAccount accNum name initialBalance)] }

/-- Embeds `Bank::createCurrentAccount`: appends a new Current account; no
uniqueness check on the account number. -/
def Bank.createCurrentAccount (b : Bank) (accNum name : String)
    (initialBalance : ℚ) : Bank :=
  { b with accounts :=
      b.accounts ++ [Account.current (mkCurrentAccount accNum name initialBalance)] }

/-- Embeds `Bank::findAccount`: `std::find_if` over the account vector,
returning the first account whose number equals the query, or nothing
("not found"). -/
def Bank.findAccount (b : Bank) (accNum : String) : Option Account :=
  b.accounts.find? (fun a => a.getAccountNumber == accNum)

/-- Embeds `Bank::applyInterestToSavingsAccounts`: iterates the accounts in
order; each Savings account gets `applyInterest()`, each Current account is
skipped (the `dynamic_cast` fails). -/
def Bank.applyInterestToSavingsAccounts (b : Bank) : Bank :=
  { b with accounts := b.accounts.map (fun a =>
      match a with
      | .savings s => .savings s.applyInterest
      | .current c => .current c) }

/-! ## Spec-side notions

The spec's invariant language: the signed amount of a transaction
("deposits/interest positive, withdrawals/fees negative"), sums of signed
amounts, and the running-balance consistency of a history. -/

/-- The signed amount of a transaction as the spec reads a history:
"Deposit", "Initial Deposit" and "Interest Credit" count positive,
"Withdrawal" and "Overdraft Fee" count negative. -/
def Transaction.signedAmount (t : Transaction) : ℚ :=
  if t.type = "Withdrawal" ∨ t.type = "Overdraft Fee" then -t.amount else t.amount

/-- Sum of the signed amounts of a history, every kind included (the sum
exactly as claim C1 words it, "Initial Deposit" counting positive). -/
def sumSigned (ts : List Transaction) : ℚ :=
  (ts.map Transaction.signedAmount).sum

/-- The signed contribution of a transaction with "Initial Deposit" records
counting zero: an "Initial Deposit" merely records the opening balance that
the `initialBalance` term of the invariant already accounts for. -/
def Transaction.signedAmountSkipInitial (t : Transaction) : ℚ :=
  if t.type = "Initial Deposit" then 0 else t.signedAmount

/-- Sum of the signed amounts of a history with "Initial Deposit" records
counting zero. -/
def sumSignedSkipInitial (ts : List Transaction) : ℚ :=
  (ts.map Transaction.signedAmountSkipInitial).sum

/-- Checks that, starting from running balance `c`, every transaction of the
history records in `balanceAfter` exactly the running balance immediately
after its own signed contribution ("Initial Deposit" contributing zero on
top of the opening balance `c` it restates). -/
def balancesOk (c : ℚ) : List Transaction → Bool
  | [] => true
  | t :: ts =>
    decide (t.balanceAfter = c + t.signedAmountSkipInitial) &&
      balancesOk (c + t.signedAmountSkipInitial) ts

/-- Checks that every transaction of a history has a non-negative amount. -/
def amountsNonneg (ts : List Transaction) : Bool :=
  ts.all (fun t => decide (0 ≤ t.amount))

/-- The bookkeeping invariant tying an account base to the opening balance
`c` it was created with: the balance is `c` plus the signed contributions of
the history ("Initial Deposit" contributing zero, as it restates `c`), and
every transaction's `balanceAfter` records the running balance at its own
point in the history. -/
def baseInv (c : ℚ) (b : AccountBase) : Prop :=
  b.balance = c + sumSignedSkipInitial b.transactionHistory ∧
    balancesOk c b.transactionHistory = true

/-- The non-negativity invariant of claim C8, per variant: for a Savings
account it needs the balance, rate and minimum balance non-negative (the
interest credit is `balance * rate / 12`); for a Current account only a
non-negative fee. -/
def amountsInv : Account → Prop
  | .savings s => 0 ≤ s.base.balance ∧ 0 ≤ s.interestRate ∧
      0 ≤ s.minimumBalance ∧ amountsNonneg s.base.transactionHistory = true
  | .current c => 0 ≤ c.overdraftFee ∧ amountsNonneg c.base.transactionHistory = true

/-! ## Theorems -/

theorem sumSignedSkipInitial_append (ts us : List Transaction) :
    sumSignedSkipInitial (ts ++ us) =
      sumSignedSkipInitial ts + sumSignedSkipInitial us := by
  simp [sumSignedSkipInitial]

theorem balancesOk_append_single (t : Transaction) :
    ∀ (ts : List Transaction) (c : ℚ),
      (balancesOk c (ts ++ [t]) = true ↔
        balancesOk c ts = true ∧
          t.balanceAfter =
            c + sumSignedSkipInitial ts + t.signedAmountSkipInitial) := by
  intro ts
  induction ts with
  | nil =>
    intro c
    simp [balancesOk, sumSignedSkipInitial]
  | cons t0 ts ih =>
    intro c
    have e1 : balancesOk c ((t0 :: ts) ++ [t]) =
        (decide (t0.balanceAfter = c + t0.signedAmountSkipInitial) &&
          balancesOk (c + t0.signedAmountSkipInitial) (ts ++ [t])) := rfl
    have e2 : balancesOk c (t0 :: ts) =
        (decide (t0.balanceAfter = c + t0.signedAmountSkipInitial) &&
          balancesOk (c + t0.signedAmountSkipInitial) ts) := rfl
    have e3 : sumSignedSkipInitial (t0 :: ts) =
        t0.signedAmountSkipInitial + sumSignedSkipInitial ts := by
      simp [sumSignedSkipInitial]
    rw [e1, e2, e3, Bool.and_eq_true, Bool.and_eq_true, decide_eq_true_eq,
      ih (c + t0.signedAmountSkipInitial)]
    constructor
    · rintro ⟨h1, h2, h3⟩
      exact ⟨⟨h1, h2⟩, by rw [h3]; ring⟩
    · rintro ⟨⟨h1, h2⟩, h3⟩
      exact ⟨h1, h2, by rw [h3]; ring⟩

theorem amountsNonneg_append (ts us : List Transaction) :
    amountsNonneg (ts ++ us) = (amountsNonneg ts && amountsNonneg us) := by
  simp [amountsNonneg]

/-- One mutation-plus-record step preserves the bookkeeping invariant: the
balance moves by `δ` and the recorded transaction contributes exactly `δ`. -/
theorem baseInv_step (c δ nb : ℚ) (b : AccountBase) (type : String) (amount : ℚ)
    (hb : baseInv c b) (hnb : nb = b.balance + δ)
    (hδ : Transaction.signedAmountSkipInitial ⟨type, amount, nb⟩ = δ) :
    baseInv c (({ b with balance := nb } : AccountBase).addTransaction
      type amount) := by
  obtain ⟨h1, h2⟩ := hb
  have hsingle : sumSignedSkipInitial [⟨type, amount, nb⟩] = δ := by
    simp only [sumSignedSkipInitial, List.map_cons, List.map_nil, List.sum_cons,
      List.sum_nil, hδ]
    ring
  constructor
  · show nb = c + sumSignedSkipInitial
      (b.transactionHistory ++ [⟨type, amount, nb⟩])
    rw [sumSignedSkipInitial_append, hsingle, hnb, h1]
    ring
  · show balancesOk c (b.transactionHistory ++ [⟨type, amount, nb⟩]) = true
    rw [balancesOk_append_single]
    refine ⟨h2, ?_⟩
    rw [hδ, hnb, h1]

theorem savings_deposit_baseInv (c : ℚ) (s : SavingsAccount) (amount : ℚ)
    (h : baseInv c s.base) : baseInv c (s.deposit amount).2.base := by
  unfold SavingsAccount.deposit
  by_cases h1 : amount ≤ 0
  · rw [if_pos h1]
    exact h
  · rw [if_neg h1]
    exact baseInv_step c amount _ s.base "Deposit" amount h rfl (by
      simp [Transaction.signedAmountSkipInitial, Transaction.signedAmount])

theorem savings_withdraw_baseInv (c : ℚ) (s : SavingsAccount) (amount : ℚ)
    (h : baseInv c s.base) : baseInv c (s.withdraw amount).2.base := by
  unfold SavingsAccount.withdraw
  by_cases h1 : amount ≤ 0
  · rw [if_pos h1]
    exact h
  · rw [if_neg h1]
    by_cases h2 : s.base.balance - amount < s.minimumBalance
    · rw [if_pos h2]
      exact h
    · rw [if_neg h2]
      exact baseInv_step c (-amount) _ s.base "Withdrawal" amount h (by ring) (by
        simp [Transaction.signedAmountSkipInitial, Transaction.signedAmount])

theorem savings_applyInterest_baseInv (c : ℚ) (s : SavingsAccount)
    (h : baseInv c s.base) : baseInv c s.applyInterest.base := by
  unfold SavingsAccount.applyInterest
  exact baseInv_step c (s.base.balance * s.interestRate / 12) _ s.base
    "Interest Credit" (s.base.balance * s.interestRate / 12) h rfl (by
      simp [Transaction.signedAmountSkipInitial, Transaction.signedAmount])

theorem current_deposit_baseInv (c : ℚ) (ca : CurrentAccount) (amount : ℚ)
    (h : baseInv c ca.base) : baseInv c (ca.deposit amount).2.base := by
  unfold CurrentAccount.deposit
  by_cases h1 : amount ≤ 0
  · rw [if_pos h1]
    exact h
  · rw [if_neg h1]
    exact baseInv_step c amount _ ca.base "Deposit" amount h rfl (by
      simp [Transaction.signedAmountSkipInitial, Transaction.signedAmount])

theorem current_withdraw_baseInv (c : ℚ) (ca : CurrentAccount) (amount : ℚ)
    (h : baseInv c ca.base) : baseInv c (ca.withdraw amount).2.base := by
  unfold CurrentAccount.withdraw
  by_cases h1 : amount ≤ 0
  · rw [if_pos h1]
    exact h
  · rw [if_neg h1]
    by_cases h2 : ca.base.balance - amount < -ca.overdraftLimit
    · rw [if_pos h2]
      exact h
    · rw [if_neg h2]
      simp only [AccountBase.addTransaction]
      have hb1 : baseInv c
          (({ ca.base with balance := ca.base.balance - amount
            } : AccountBase).addTransaction "Withdrawal" amount) :=
        baseInv_step c (-amount) _ ca.base "Withdrawal" amount h (by ring) (by
          simp [Transaction.signedAmountSkipInitial, Transaction.signedAmount])
      by_cases h3 : ca.base.balance - amount < 0
      · rw [if_pos h3]
        exact baseInv_step c (-ca.overdraftFee) _ _ "Overdraft Fee"
          ca.overdraftFee hb1 (by simp [AccountBase.addTransaction]; ring) (by
            simp [Transaction.signedAmountSkipInitial, Transaction.signedAmount])
      · rw [if_neg h3]
        exact hb1

theorem applyOp_baseInv (c : ℚ) (a : Account) (op : AccountOp)
    (h : baseInv c a.base) : baseInv c (a.applyOp op).base := by
  cases op with
  | deposit amount =>
    cases a with
    | savings s => exact savings_deposit_baseInv c s amount h
    | current ca => exact current_deposit_baseInv c ca amount h
  | withdraw amount =>
    cases a with
    | savings s => exact savings_withdraw_baseInv c s amount h
    | current ca => exact current_withdraw_baseInv c ca amount h
  | applyInterest =>
    cases a with
    | savings s => exact savings_applyInterest_baseInv c s h
    | current ca => exact h

theorem runOps_baseInv (c : ℚ) (ops : List AccountOp) :
    ∀ a : Account, baseInv c a.base → baseInv c (a.runOps ops).base := by
  induction ops with
  | nil => exact fun a h => h
  | cons op ops ih => exact fun a h => ih _ (applyOp_baseInv c a op h)

theorem init_baseInv (accNum name : String) (B : ℚ) :
    baseInv B (AccountBase.init accNum name B) := by
  unfold baseInv AccountBase.init
  by_cases h : B > 0 <;>
    simp [h, sumSignedSkipInitial, balancesOk,
      Transaction.signedAmountSkipInitial]

/-- C1 (amended): for either variant and any reachable state (creation with
any opening balance B followed by any sequence of deposit / withdraw /
applyInterest operations), the balance equals B plus the sum of the signed
amounts of the recorded transactions, where "Deposit" and "Interest Credit"
count positive, "Withdrawal" and "Overdraft Fee" count negative, and
"Initial Deposit" counts zero (its amount is the opening balance B itself,
already counted by the B term). -/
theorem balance_eq_initial_plus_signed_sum (accNum name : String) (B : ℚ)
    (ops : List AccountOp) :
    ((Account.savings (mkSavingsAccount accNum name B)).runOps ops).getBalance =
      B + sumSignedSkipInitial
        ((Account.savings (mkSavingsAccount accNum name B)).runOps
          ops).transactionHistory ∧
    ((Account.current (mkCurrentAccount accNum name B)).runOps ops).getBalance =
      B + sumSignedSkipInitial
        ((Account.current (mkCurrentAccount accNum name B)).runOps
          ops).transactionHistory := by
  exact ⟨(runOps_baseInv B ops (Account.savings (mkSavingsAccount accNum name B))
      (init_baseInv accNum name B)).1,
    (runOps_baseInv B ops (Account.current (mkCurrentAccount accNum name B))
      (init_baseInv accNum name B)).1⟩

/-- C1 counterexample: a Savings account created with opening balance 100
(a reachable state, no operation applied yet) has balance 100, while
`initialBalance + Σ(signed amounts)` with the "Initial Deposit" counted
positive, as the claim words it, is 200: the opening balance is counted
twice. -/
theorem balance_initial_double_count_cex :
    ((Account.savings (mkSavingsAccount "S1" "Alice" 100)).runOps
        []).getBalance = 100 ∧
    100 + sumSigned ((Account.savings (mkSavingsAccount "S1" "Alice" 100)).runOps
        []).transactionHistory = 200 ∧
    ((Account.savings (mkSavingsAccount "S1" "Alice" 100)).runOps
        []).getBalance ≠
      100 + sumSigned ((Account.savings (mkSavingsAccount "S1" "Alice"
        100)).runOps []).transactionHistory := by
  have hhist : ((Account.savings (mkSavingsAccount "S1" "Alice" 100)).runOps
      []).transactionHistory = [⟨"Initial Deposit", 100, 100⟩] := by
    simp [Account.runOps, Account.transactionHistory, Account.base,
      mkSavingsAccount, AccountBase.init, show (0 : ℚ) < 100 from by norm_num]
  have hsum : sumSigned ([⟨"Initial Deposit", 100, 100⟩] : List Transaction) =
      100 := by
    simp [sumSigned, Transaction.signedAmount]
  refine ⟨rfl, ?_, ?_⟩
  · rw [hhist, hsum]
    norm_num
  · rw [show ((Account.savings (mkSavingsAccount "S1" "Alice" 100)).runOps
        []).getBalance = 100 from rfl, hhist, hsum]
    norm_num

/-- C2: for a Savings account with balance b and minimum balance m,
`withdraw amount` is accepted iff `0 < amount` and `b - amount ≥ m`; on
acceptance the balance becomes `b - amount`, exactly one "Withdrawal"
transaction is appended and `true` is returned; on rejection (`amount ≤ 0`
or `b - amount < m`) the account is unchanged and `false` is returned. -/
theorem savings_withdraw_spec (s : SavingsAccount) (amount : ℚ) :
    ((s.withdraw amount).1 = true ↔
      0 < amount ∧ s.minimumBalance ≤ s.base.balance - amount) ∧
    ((s.withdraw amount).1 = true →
      (s.withdraw amount).2 =
        ⟨⟨s.base.accountNumber, s.base.holderName, s.base.balance - amount,
          s.base.transactionHistory ++
            [⟨"Withdrawal", amount, s.base.balance - amount⟩]⟩,
         s.interestRate, s.minimumBalance⟩) ∧
    ((s.withdraw amount).1 = false → (s.withdraw amount).2 = s) := by
  unfold SavingsAccount.withdraw
  split_ifs with h1 h2
  · refine ⟨by simp; intro h; linarith, by simp, fun _ => rfl⟩
  · refine ⟨by simp; intro h; linarith, by simp, fun _ => rfl⟩
  · refine ⟨by simp; constructor <;> linarith, fun _ => ?_, by simp⟩
    simp [AccountBase.addTransaction]

/-- C3: for a Current account with balance b, overdraft limit L and fee f,
`withdraw amount` with `0 < amount` is rejected exactly when
`b - amount < -L` (state unchanged, `false` returned); when accepted and
`b - amount < 0`, the final balance is `b - amount - f` with the
"Withdrawal" and then the "Overdraft Fee" transaction appended (the fee not
re-checked against L); when accepted and `0 ≤ b - amount`, only the
"Withdrawal" transaction is appended and the balance is `b - amount`. -/
theorem current_withdraw_spec (c : CurrentAccount) (amount : ℚ) :
    ((c.withdraw amount).1 = true ↔
      0 < amount ∧ -c.overdraftLimit ≤ c.base.balance - amount) ∧
    ((c.withdraw amount).1 = false → (c.withdraw amount).2 = c) ∧
    (0 < amount → -c.overdraftLimit ≤ c.base.balance - amount →
      c.base.balance - amount < 0 →
      (c.withdraw amount).2 =
        ⟨⟨c.base.accountNumber, c.base.holderName,
          c.base.balance - amount - c.overdraftFee,
          c.base.transactionHistory ++
            [⟨"Withdrawal", amount, c.base.balance - amount⟩,
             ⟨"Overdraft Fee", c.overdraftFee,
              c.base.balance - amount - c.overdraftFee⟩]⟩,
         c.overdraftLimit, c.overdraftFee⟩) ∧
    (0 < amount → -c.overdraftLimit ≤ c.base.balance - amount →
      0 ≤ c.base.balance - amount →
      (c.withdraw amount).2 =
        ⟨⟨c.base.accountNumber, c.base.holderName, c.base.balance - amount,
          c.base.transactionHistory ++
            [⟨"Withdrawal", amount, c.base.balance - amount⟩]⟩,
         c.overdraftLimit, c.overdraftFee⟩) := by
  unfold CurrentAccount.withdraw
  by_cases h1 : amount ≤ 0
  · rw [if_pos h1]
    refine ⟨?_, fun _ => rfl, ?_, ?_⟩
    · simp only [Prod.fst]
      constructor
      · intro h
        exact absurd h (by simp)
      · rintro ⟨hp, -⟩
        exact absurd hp (not_lt.mpr h1)
    · intro hp _ _
      exact absurd hp (not_lt.mpr h1)
    · intro hp _ _
      exact absurd hp (not_lt.mpr h1)
  · rw [if_neg h1]
    by_cases h2 : c.base.balance - amount < -c.overdraftLimit
    · rw [if_pos h2]
      refine ⟨?_, fun _ => rfl, ?_, ?_⟩
      · simp only [Prod.fst]
        constructor
        · intro h
          exact absurd h (by simp)
        · rintro ⟨-, hge⟩
          exact absurd hge (not_le.mpr h2)
      · intro _ hge _
        exact absurd hge (not_le.mpr h2)
      · intro _ hge _
        exact absurd hge (not_le.mpr h2)
    · rw [if_neg h2]
      simp only [AccountBase.addTransaction]
      by_cases h3 : c.base.balance - amount < 0
      · rw [if_pos h3]
        refine ⟨by simp; exact ⟨not_le.mp h1, by linarith [not_lt.mp h2]⟩, by simp,
          fun _ _ _ => ?_, fun _ _ hge => ?_⟩
        · simp
        · exact absurd hge (not_le.mpr h3)
      · rw [if_neg h3]
        refine ⟨by simp; exact ⟨not_le.mp h1, by linarith [not_lt.mp h2]⟩, by simp,
          fun _ _ hlt => ?_, fun _ _ _ => ?_⟩
        · exact absurd hlt h3
        · simp

/-- C4: for either account variant, `deposit amount` with `amount ≤ 0`
changes nothing and reports failure; with `0 < amount` it adds exactly
`amount` to the balance and appends exactly one "Deposit" transaction. -/
theorem deposit_spec (s : SavingsAccount) (c : CurrentAccount) (amount : ℚ) :
    (amount ≤ 0 → s.deposit amount = (false, s) ∧ c.deposit amount = (false, c)) ∧
    (0 < amount →
      s.deposit amount =
        (true, ⟨⟨s.base.accountNumber, s.base.holderName, s.base.balance + amount,
          s.base.transactionHistory ++
            [⟨"Deposit", amount, s.base.balance + amount⟩]⟩,
         s.interestRate, s.minimumBalance⟩) ∧
      c.deposit amount =
        (true, ⟨⟨c.base.accountNumber, c.base.holderName, c.base.balance + amount,
          c.base.transactionHistory ++
            [⟨"Deposit", amount, c.base.balance + amount⟩]⟩,
         c.overdraftLimit, c.overdraftFee⟩)) := by
  unfold SavingsAccount.deposit CurrentAccount.deposit
  split_ifs with h
  · exact ⟨fun _ => ⟨rfl, rfl⟩, fun hp => absurd hp (by linarith)⟩
  · exact ⟨fun hle => absurd hle h, fun _ => by
      simp [AccountBase.addTransaction]⟩

/-- C5: `applyInterest` on a Savings account with balance B and rate R sets
the balance to `B + B*R/12` and appends exactly one "Interest Credit"
transaction of amount `B*R/12`; nothing else changes, no precondition is
checked, and a second call compounds on the then-current balance. -/
theorem savings_applyInterest_spec (s : SavingsAccount) :
    s.applyInterest =
      ⟨⟨s.base.accountNumber, s.base.holderName,
        s.base.balance + s.base.balance * s.interestRate / 12,
        s.base.transactionHistory ++
          [⟨"Interest Credit", s.base.balance * s.interestRate / 12,
            s.base.balance + s.base.balance * s.interestRate / 12⟩]⟩,
       s.interestRate, s.minimumBalance⟩ ∧
    s.applyInterest.applyInterest.base.balance =
      s.applyInterest.base.balance +
        s.applyInterest.base.balance * s.interestRate / 12 := by
  constructor
  · simp [SavingsAccount.applyInterest, AccountBase.addTransaction]
  · simp [SavingsAccount.applyInterest, AccountBase.addTransaction]

/-- C7 (amended): an account created with a positive initial balance B
starts with balance B and exactly one "Initial Deposit" transaction of
amount B; an account created with initial balance B ≤ 0 (zero included)
starts with balance B and an empty history.  Both Bank creation paths build
their account base this way. -/
theorem account_creation_spec (accNum name : String) (B : ℚ) :
    (AccountBase.init accNum name B).balance = B ∧
    (0 < B → (AccountBase.init accNum name B).transactionHistory =
      [⟨"Initial Deposit", B, B⟩]) ∧
    (B ≤ 0 → (AccountBase.init accNum name B).transactionHistory = []) ∧
    (mkSavingsAccount accNum name B).base = AccountBase.init accNum name B ∧
    (mkCurrentAccount accNum name B).base = AccountBase.init accNum name B := by
  refine ⟨rfl, fun h => ?_, fun h => ?_, rfl, rfl⟩
  · simp [AccountBase.init, h]
  · simp [AccountBase.init, not_lt.mpr h]

/-- C7 counterexample: a Savings account created with the non-zero initial
balance -5 starts with an empty transaction history (the source tests
`initialBalance > 0`, not non-zero), contradicting the claim that every
non-zero opening balance yields one "Initial Deposit" transaction. -/
theorem account_creation_nonzero_cex :
    (-5 : ℚ) ≠ 0 ∧
    (mkSavingsAccount "S1" "Alice" (-5)).base.balance = -5 ∧
    (mkSavingsAccount "S1" "Alice" (-5)).base.transactionHistory = [] := by
  refine ⟨by norm_num, rfl, ?_⟩
  simp [mkSavingsAccount, AccountBase.init]

/-- C10: the Savings and Current deposit implementations are extensionally
equal: on the same base state and amount they return the same
success/failure flag and the same updated base (balance and appended
transaction included). -/
theorem deposit_variants_equivalent (b : AccountBase) (r m l f amount : ℚ) :
    ((SavingsAccount.mk b r m).deposit amount).1 =
      ((CurrentAccount.mk b l f).deposit amount).1 ∧
    ((SavingsAccount.mk b r m).deposit amount).2.base =
      ((CurrentAccount.mk b l f).deposit amount).2.base := by
  unfold SavingsAccount.deposit CurrentAccount.deposit
  split_ifs <;> exact ⟨rfl, rfl⟩

theorem savings_deposit_amountsInv (s : SavingsAccount) (amount : ℚ)
    (h : amountsInv (.savings s)) :
    amountsInv (.savings (s.deposit amount).2) := by
  obtain ⟨hbal, hrate, hmin, hamounts⟩ := h
  unfold SavingsAccount.deposit
  by_cases h1 : amount ≤ 0
  · rw [if_pos h1]
    exact ⟨hbal, hrate, hmin, hamounts⟩
  · rw [if_neg h1]
    refine ⟨show (0 : ℚ) ≤ s.base.balance + amount by linarith, hrate, hmin, ?_⟩
    show amountsNonneg (s.base.transactionHistory ++ [⟨"Deposit", amount, _⟩]) = true
    rw [amountsNonneg_append, Bool.and_eq_true, hamounts]
    exact ⟨rfl, by simp [amountsNonneg]; linarith⟩

theorem savings_withdraw_amountsInv (s : SavingsAccount) (amount : ℚ)
    (h : amountsInv (.savings s)) :
    amountsInv (.savings (s.withdraw amount).2) := by
  obtain ⟨hbal, hrate, hmin, hamounts⟩ := h
  unfold SavingsAccount.withdraw
  by_cases h1 : amount ≤ 0
  · rw [if_pos h1]
    exact ⟨hbal, hrate, hmin, hamounts⟩
  · rw [if_neg h1]
    by_cases h2 : s.base.balance - amount < s.minimumBalance
    · rw [if_pos h2]
      exact ⟨hbal, hrate, hmin, hamounts⟩
    · rw [if_neg h2]
      refine ⟨show (0 : ℚ) ≤ s.base.balance - amount by linarith [not_lt.mp h2],
        hrate, hmin, ?_⟩
      show amountsNonneg (s.base.transactionHistory ++
        [⟨"Withdrawal", amount, _⟩]) = true
      rw [amountsNonneg_append, Bool.and_eq_true, hamounts]
      exact ⟨rfl, by simp [amountsNonneg]; linarith⟩

theorem savings_applyInterest_amountsInv (s : SavingsAccount)
    (h : amountsInv (.savings s)) :
    amountsInv (.savings s.applyInterest) := by
  obtain ⟨hbal, hrate, hmin, hamounts⟩ := h
  have hint : 0 ≤ s.base.balance * s.interestRate / 12 := by positivity
  unfold SavingsAccount.applyInterest
  refine ⟨show (0 : ℚ) ≤ s.base.balance + s.base.balance * s.interestRate / 12
    by linarith, hrate, hmin, ?_⟩
  show amountsNonneg (s.base.transactionHistory ++
    [⟨"Interest Credit", s.base.balance * s.interestRate / 12, _⟩]) = true
  rw [amountsNonneg_append, Bool.and_eq_true, hamounts]
  exact ⟨rfl, by simp [amountsNonneg]; linarith⟩

theorem current_deposit_amountsInv (c : CurrentAccount) (amount : ℚ)
    (h : amountsInv (.current c)) :
    amountsInv (.current (c.deposit amount).2) := by
  obtain ⟨hfee, hamounts⟩ := h
  unfold CurrentAccount.deposit
  by_cases h1 : amount ≤ 0
  · rw [if_pos h1]
    exact ⟨hfee, hamounts⟩
  · rw [if_neg h1]
    refine ⟨hfee, ?_⟩
    show amountsNonneg (c.base.transactionHistory ++ [⟨"Deposit", amount, _⟩]) = true
    rw [amountsNonneg_append, Bool.and_eq_true, hamounts]
    exact ⟨rfl, by simp [amountsNonneg]; linarith⟩

theorem current_withdraw_amountsInv (c : CurrentAccount) (amount : ℚ)
    (h : amountsInv (.current c)) :
    amountsInv (.current (c.withdraw amount).2) := by
  obtain ⟨hfee, hamounts⟩ := h
  unfold CurrentAccount.withdraw
  by_cases h1 : amount ≤ 0
  · rw [if_pos h1]
    exact ⟨hfee, hamounts⟩
  · rw [if_neg h1]
    by_cases h2 : c.base.balance - amount < -c.overdraftLimit
    · rw [if_pos h2]
      exact ⟨hfee, hamounts⟩
    · rw [if_neg h2]
      simp only [AccountBase.addTransaction]
      have hone : amountsNonneg (c.base.transactionHistory ++
          [⟨"Withdrawal", amount, c.base.balance - amount⟩]) = true := by
        rw [amountsNonneg_append, Bool.and_eq_true, hamounts]
        exact ⟨rfl, by simp [amountsNonneg]; linarith⟩
      by_cases h3 : c.base.balance - amount < 0
      · rw [if_pos h3]
        refine ⟨hfee, ?_⟩
        show amountsNonneg ((c.base.transactionHistory ++
          [⟨"Withdrawal", amount, c.base.balance - amount⟩]) ++
          [⟨"Overdraft Fee", c.overdraftFee, _⟩]) = true
        rw [amountsNonneg_append, Bool.and_eq_true, hone]
        exact ⟨rfl, by simp [amountsNonneg]; linarith⟩
      · rw [if_neg h3]
        exact ⟨hfee, hone⟩

theorem applyOp_amountsInv (a : Account) (op : AccountOp)
    (h : amountsInv a) : amountsInv (a.applyOp op) := by
  cases op with
  | deposit amount =>
    cases a with
    | savings s => exact savings_deposit_amountsInv s amount h
    | current c => exact current_deposit_amountsInv c amount h
  | withdraw amount =>
    cases a with
    | savings s => exact savings_withdraw_amountsInv s amount h
    | current c => exact current_withdraw_amountsInv c amount h
  | applyInterest =>
    cases a with
    | savings s => exact savings_applyInterest_amountsInv s h
    | current c => exact h

theorem runOps_amountsInv (ops : List AccountOp) :
    ∀ a : Account, amountsInv a → amountsInv (a.runOps ops) := by
  induction ops with
  | nil => exact fun a h => h
  | cons op ops ih => exact fun a h => ih _ (applyOp_amountsInv a op h)

theorem amountsInv_nonneg (a : Account) (h : amountsInv a) :
    amountsNonneg a.transactionHistory = true := by
  cases a with
  | savings s => exact h.2.2.2
  | current c => exact h.2

theorem init_amountsNonneg (accNum name : String) (B : ℚ) (hB : 0 ≤ B) :
    amountsNonneg (AccountBase.init accNum name B).transactionHistory = true := by
  unfold AccountBase.init
  by_cases h : B > 0
  · simp [h, amountsNonneg, hB]
  · simp [h, amountsNonneg]

/-- C8 (amended): for either variant and any reachable state (creation with
opening balance B, then any sequence of operations), every transaction's
`balanceAfter` equals the account's balance immediately after the event
that created it (the running-balance consistency `balancesOk`); and, when
the opening balance is non-negative, every transaction's amount is
non-negative.  (With a negative opening balance the interest credit
`balance * rate / 12` of a Savings account can be negative, so the
non-negativity of amounts only holds under that proviso.) -/
theorem transaction_record_integrity (accNum name : String) (B : ℚ)
    (ops : List AccountOp) :
    balancesOk B ((Account.savings (mkSavingsAccount accNum name B)).runOps
      ops).transactionHistory = true ∧
    balancesOk B ((Account.current (mkCurrentAccount accNum name B)).runOps
      ops).transactionHistory = true ∧
    (0 ≤ B → amountsNonneg ((Account.savings (mkSavingsAccount accNum name
      B)).runOps ops).transactionHistory = true) ∧
    (0 ≤ B → amountsNonneg ((Account.current (mkCurrentAccount accNum name
      B)).runOps ops).transactionHistory = true) := by
  refine ⟨(runOps_baseInv B ops (Account.savings (mkSavingsAccount accNum name B))
      (init_baseInv accNum name B)).2,
    (runOps_baseInv B ops (Account.current (mkCurrentAccount accNum name B))
      (init_baseInv accNum name B)).2, fun hB => ?_, fun hB => ?_⟩
  · exact amountsInv_nonneg _ (runOps_amountsInv ops
      (Account.savings (mkSavingsAccount accNum name B))
      ⟨hB, show (0 : ℚ) ≤ 4/100 from by norm_num,
        show (0 : ℚ) ≤ 100 from by norm_num,
        init_amountsNonneg accNum name B hB⟩)
  · exact amountsInv_nonneg _ (runOps_amountsInv ops
      (Account.current (mkCurrentAccount accNum name B))
      ⟨show (0 : ℚ) ≤ 25 from by norm_num,
        init_amountsNonneg accNum name B hB⟩)

/-- C8 counterexample: the reachable state of a Savings account created
with opening balance -300 and then reached by the bank's interest
application holds an "Interest Credit" transaction of amount
-300 * (4/100) / 12 = -1, a negative amount. -/
theorem transaction_amount_negative_cex :
    ((Account.savings (mkSavingsAccount "S2" "Carol" (-300))).runOps
      [.applyInterest]).transactionHistory =
      [⟨"Interest Credit", -1, -301⟩] ∧
    amountsNonneg ((Account.savings (mkSavingsAccount "S2" "Carol"
      (-300))).runOps [.applyInterest]).transactionHistory = false := by
  have hhist : ((Account.savings (mkSavingsAccount "S2" "Carol" (-300))).runOps
      [.applyInterest]).transactionHistory =
      [⟨"Interest Credit", (-300 : ℚ) * (4/100) / 12,
        (-300 : ℚ) + (-300 : ℚ) * (4/100) / 12⟩] := by
    simp [Account.runOps, Account.applyOp, Account.transactionHistory,
      Account.base, mkSavingsAccount, AccountBase.init,
      SavingsAccount.applyInterest, AccountBase.addTransaction,
      show ¬((0 : ℚ) < -300) from by norm_num]
  rw [hhist]
  constructor
  · norm_num
  · simp [amountsNonneg]
    norm_num

/-- A `find?` hit is exactly the first match: the list splits as a prefix
with no match, the returned element (which matches), and a suffix. -/
theorem find_first_characterisation {α : Type} (p : α → Bool) :
    ∀ (l : List α) (a : α),
      (l.find? p = some a ↔
        p a = true ∧ ∃ l1 l2, l = l1 ++ a :: l2 ∧ ∀ x ∈ l1, p x = false) := by
  intro l
  induction l with
  | nil =>
    intro a
    simp
  | cons x xs ih =>
    intro a
    by_cases hx : p x = true
    · rw [List.find?_cons_of_pos _ hx]
      constructor
      · rintro h
        rw [Option.some_inj] at h
        subst h
        exact ⟨hx, [], xs, rfl, by simp⟩
      · rintro ⟨ha, l1, l2, heq, hnone⟩
        cases l1 with
        | nil =>
          rw [List.nil_append, List.cons_eq_cons] at heq
          rw [heq.1]
        | cons y ys =>
          rw [List.cons_append, List.cons_eq_cons] at heq
          have : p y = false := hnone y (by simp)
          rw [heq.1] at hx
          rw [hx] at this
          exact absurd this (by simp)
    · rw [List.find?_cons_of_neg _ hx, ih a]
      constructor
      · rintro ⟨ha, l1, l2, heq, hnone⟩
        refine ⟨ha, x :: l1, l2, by rw [heq, List.cons_append], ?_⟩
        intro z hz
        rcases List.mem_cons.mp hz with hzx | hzm
        · rw [hzx]
          exact Bool.not_eq_true _ ▸ (by simpa using hx)
        · exact hnone z hzm
      · rintro ⟨ha, l1, l2, heq, hnone⟩
        cases l1 with
        | nil =>
          rw [List.nil_append, List.cons_eq_cons] at heq
          rw [heq.1] at hx
          exact absurd ha hx
        | cons y ys =>
          rw [List.cons_append, List.cons_eq_cons] at heq
          exact ⟨ha, ys, l2, heq.2, fun z hz => hnone z (by simp [hz])⟩

/-- C6: `findAccount` returns nothing ("not found") exactly when no stored
account bears the queried number; and it returns an account exactly when
that account bears the queried number and is the first such account in
creation order (every earlier account has a different number) — so among
duplicates only the earliest-created one is ever returned. -/
theorem bank_findAccount_spec (b : Bank) (q : String) :
    (b.findAccount q = none ↔ ∀ a ∈ b.accounts, a.getAccountNumber ≠ q) ∧
    (∀ acc : Account,
      b.findAccount q = some acc ↔
        acc.getAccountNumber = q ∧
        ∃ l1 l2, b.accounts = l1 ++ acc :: l2 ∧
          ∀ x ∈ l1, x.getAccountNumber ≠ q) := by
  constructor
  · rw [Bank.findAccount, List.find?_eq_none]
    constructor
    · intro h a ha
      have := h a ha
      simpa using this
    · intro h a ha
      simpa using h a ha
  · intro acc
    rw [Bank.findAccount, find_first_characterisation
      (fun a => a.getAccountNumber == q) b.accounts acc]
    constructor
    · rintro ⟨ha, l1, l2, heq, hnone⟩
      exact ⟨by simpa using ha, l1, l2, heq, fun x hx => by simpa using hnone x hx⟩
    · rintro ⟨ha, l1, l2, heq, hnone⟩
      exact ⟨by simpa using ha, l1, l2, heq, fun x hx => by simpa using hnone x hx⟩

/-- C9: the batch interest application keeps the bank's name and the number
and order of accounts; the account at each position i becomes
`applyInterest` of the old Savings account there, and is exactly the old
account there when that account is a Current one. -/
theorem bank_applyInterest_spec (b : Bank) :
    b.applyInterestToSavingsAccounts.bankName = b.bankName ∧
    b.applyInterestToSavingsAccounts.accounts.length = b.accounts.length ∧
    (∀ (i : ℕ) (s : SavingsAccount),
      b.accounts[i]? = some (Account.savings s) →
      b.applyInterestToSavingsAccounts.accounts[i]? =
        some (Account.savings s.applyInterest)) ∧
    (∀ (i : ℕ) (c : CurrentAccount),
      b.accounts[i]? = some (Account.current c) →
      b.applyInterestToSavingsAccounts.accounts[i]? =
        some (Account.current c)) := by
  refine ⟨rfl, by simp [Bank.applyInterestToSavingsAccounts], ?_, ?_⟩
  · intro i s h
    show (b.accounts.map _)[i]? = _
    rw [List.getElem?_map, h]
    rfl
  · intro i c h
    show (b.accounts.map _)[i]? = _
    rw [List.getElem?_map, h]
    rfl

end BankingSystem
